import Mathlib

/-!
Shallow embedding of the rnmat repository (src/utils.rs, src/rnum.rs,
src/mat.rs).

Modelling conventions:
* Rust u32 arithmetic is modelled on Nat with explicit wrap-around
  modulo 2^32 (release-profile wrapping semantics).  The `assert!`
  statements in RNum::new and RNum::reduce are the fatal paths of the
  rational layer; a function that can hit one returns Option, with
  none standing for the panic.
* The while loop of utils::gcd is modelled with an explicit fuel
  argument; the initial remainder bounds the iteration count because
  the remainder strictly decreases on every iteration.
* Matrix operations that mutate &mut self and return Result<()> are
  modelled as functions from the matrix to a pair of the Result and
  the post-state.  RNMat::row_mul_scalar multiplies entries with the
  panicking RNum multiplication, so it additionally returns Option.
-/

namespace Rnmat

/-- Wrap-around modulus of the u32 magnitudes. -/
def u32Mod : Nat := 2 ^ 32

/-- Wrapping u32 multiplication. -/
def wmul (a b : Nat) : Nat := a * b % u32Mod

/-- Wrapping u32 addition. -/
def wadd (a b : Nat) : Nat := (a + b) % u32Mod

/-- Wrapping u32 subtraction. -/
def wsub (a b : Nat) : Nat := (a + (u32Mod - b % u32Mod)) % u32Mod

/-- The while loop of utils::gcd, with fuel: each iteration maps the
state (b, r) to (r, b % r) and the loop stops when r = 0.  The
remainder strictly decreases, so fuel = initial r is enough. -/
def gcd_loop : Nat → Nat → Nat → Nat
  | _, b, 0 => b
  | 0, b, _ + 1 => b
  | fuel + 1, b, r + 1 => gcd_loop fuel (r + 1) (b % (r + 1))

/-- The body of utils::gcd after the initial operand swap: handle the
corner cases, then run Euclid's remainder loop. -/
def gcd_core (a b : Nat) : Nat :=
  if b = 1 then 1
  else if a = b ∨ b = 0 then a
  else gcd_loop (a % b) b (a % b)

/-- utils::gcd: swap the operands so the first is not smaller, then
run the body. -/
def gcd (a b : Nat) : Nat :=
  if a < b then gcd_core b a else gcd_core a b

/-- utils::get_reduced_pair. (Rust's u32 division panics on a zero
divisor; that happens only for gcd 0 0, i.e. both arguments zero, a
case no caller reaches.  Nat division returns 0 there.) -/
def get_reduced_pair (a b : Nat) : Nat × Nat :=
  let g := gcd a b
  (a / g, b / g)

/-- rnum::RNum: sign-magnitude rational number. -/
structure RNum where
  neg_flag : Bool
  nume : Nat
  deno : Nat
deriving DecidableEq, Repr

/-- RNum::new.  none models the assert! on a zero denominator.  The
i32 arguments are modelled as Int; |i32::MIN| coincides with natAbs
after Rust's wrapping abs-cast, so natAbs is the magnitude. -/
def RNum.new (n d : Int) : Option RNum :=
  if d = 0 then none
  else if n = 0 then some { neg_flag := false, nume := 0, deno := 1 }
  else
    let flag := (decide (n < 0) && decide (0 < d)) || (decide (0 < n) && decide (d < 0))
    let na := n.natAbs
    let da := d.natAbs
    let g := gcd da na
    some { neg_flag := flag, nume := na / g, deno := da / g }

/-- RNum::safe_make. -/
def RNum.safe_make (n d : Int) : Option RNum :=
  if d = 0 then none else RNum.new n d

/-- RNum::is_negative. -/
def RNum.is_negative (x : RNum) : Bool := x.neg_flag && x.nume != 0

/-- RNum::is_positive. -/
def RNum.is_positive (x : RNum) : Bool := !x.neg_flag && x.nume != 0

/-- RNum::is_zero. -/
def RNum.is_zero (x : RNum) : Bool := x.nume == 0

/-- RNum::zero returns RNum::new(0, 1), which is this value
(certified by RNum.zero_eq_new below). -/
def RNum.zero : RNum := { neg_flag := false, nume := 0, deno := 1 }

/-- RNum::reduce.  none models the assert! on a zero denominator. -/
def RNum.reduce (x : RNum) : Option RNum :=
  if x.deno = 0 then none
  else if x.nume = 0 then some { neg_flag := false, nume := x.nume, deno := 1 }
  else
    let g := gcd x.deno x.nume
    if 1 < g then some { neg_flag := x.neg_flag, nume := x.nume / g, deno := x.deno / g }
    else some x

/-- PartialEq for RNum. -/
def RNum.eq (x y : RNum) : Bool :=
  (get_reduced_pair x.nume x.deno == get_reduced_pair y.nume y.deno)
    && (x.neg_flag == y.neg_flag)

/-- impl Add for RNum. -/
def RNum.add (a rhs : RNum) : Option RNum :=
  let deno := wmul a.deno rhs.deno
  let nume0 := wmul a.nume rhs.deno
  let nume :=
    if rhs.neg_flag then wsub nume0 (wmul a.deno rhs.nume)
    else wadd nume0 (wmul a.deno rhs.nume)
  let flag := Bool.xor a.neg_flag rhs.neg_flag
  RNum.reduce { neg_flag := flag, nume := nume, deno := deno }

/-- impl Sub for RNum. -/
def RNum.sub (a rhs : RNum) : Option RNum :=
  let deno := wmul a.deno rhs.deno
  let nume0 := wmul a.nume rhs.deno
  let nume :=
    if rhs.neg_flag then wadd nume0 (wmul a.deno rhs.nume)
    else wsub nume0 (wmul a.deno rhs.nume)
  let flag := !(Bool.xor a.neg_flag rhs.neg_flag)
  RNum.reduce { neg_flag := flag, nume := nume, deno := deno }

/-- impl Mul for RNum. -/
def RNum.mul (a rhs : RNum) : Option RNum :=
  let deno := wmul a.deno rhs.deno
  let nume := wmul a.nume rhs.nume
  let flag := Bool.xor a.neg_flag rhs.neg_flag
  RNum.reduce { neg_flag := flag, nume := nume, deno := deno }

/-- impl Div for RNum. -/
def RNum.div (a rhs : RNum) : Option RNum :=
  let deno := wmul a.deno rhs.nume
  let nume := wmul a.nume rhs.deno
  let flag := Bool.xor a.neg_flag rhs.neg_flag
  RNum.reduce { neg_flag := flag, nume := nume, deno := deno }

/-- impl Neg for RNum. -/
def RNum.neg (x : RNum) : RNum :=
  let flag := if x.nume = 0 then false else !x.neg_flag
  { neg_flag := flag, nume := x.nume, deno := x.deno }

/-- mat::RNMatError. -/
inductive RNMatError where
  | RowDismatch
  | ColDismatch
  | InvalidIndex
deriving DecidableEq, Repr

deriving instance DecidableEq for Except

/-- mat::RNMat. -/
structure RNMat where
  mat : List (List RNum)
deriving DecidableEq, Repr

/-- RNMat::new. -/
def RNMat.new : RNMat := { mat := [] }

/-- RNMat::row_num. -/
def RNMat.row_num (m : RNMat) : Nat := m.mat.length

/-- RNMat::col_num. -/
def RNMat.col_num (m : RNMat) : Nat :=
  match m.mat with
  | [] => 0
  | r :: _ => r.length

/-- RNMat::push_row.  The Result and the post-state of &mut self. -/
def RNMat.push_row (m : RNMat) (row : List RNum) :
    Except RNMatError Unit × RNMat :=
  match m.mat with
  | [] => (Except.ok (), { mat := m.mat ++ [row] })
  | r0 :: _ =>
    if r0.length ≠ row.length then (Except.error RNMatError.RowDismatch, m)
    else (Except.ok (), { mat := m.mat ++ [row] })

/-- RNMat::push_col.  On a non-empty matrix the loop pushes the i-th
column element onto the i-th row; with the length guard passed this
is exactly zipWith. -/
def RNMat.push_col (m : RNMat) (col : List RNum) :
    Except RNMatError Unit × RNMat :=
  if m.mat.length = 0 then
    (Except.ok (), { mat := m.mat ++ col.map (fun e => [e]) })
  else if m.mat.length ≠ col.length then
    (Except.error RNMatError.ColDismatch, m)
  else
    (Except.ok (), { mat := List.zipWith (fun r e => r ++ [e]) m.mat col })

/-- Vec::swap on a list, via the two optional reads and two writes. -/
def listSwap {α : Type} (l : List α) (a b : Nat) : List α :=
  match l[a]?, l[b]? with
  | some ra, some rb => (l.set a rb).set b ra
  | _, _ => l

/-- RNMat::swap_row. -/
def RNMat.swap_row (m : RNMat) (rindex_a rindex_b : Nat) :
    Except RNMatError Unit × RNMat :=
  if m.mat.length ≤ rindex_a ∨ m.mat.length ≤ rindex_b then
    (Except.error RNMatError.InvalidIndex, m)
  else
    (Except.ok (), { mat := listSwap m.mat rindex_a rindex_b })

/-- The iter_mut loop of RNMat::row_mul_scalar over one row; none
models a panic of the RNum multiplication. -/
def mulRow (factor : RNum) : List RNum → Option (List RNum)
  | [] => some []
  | e :: rest =>
    match RNum.mul e factor with
    | none => none
    | some e2 => (mulRow factor rest).map (fun r => e2 :: r)

/-- RNMat::row_mul_scalar.  The outer none models a panic inside the
entry-wise multiplication. -/
def RNMat.row_mul_scalar (m : RNMat) (factor : RNum) (index : Nat) :
    Option (Except RNMatError Unit × RNMat) :=
  if m.mat.length ≤ index then
    some (Except.error RNMatError.InvalidIndex, m)
  else
    (mulRow factor (m.mat.getD index [])).map
      (fun row2 => (Except.ok (), { mat := m.mat.set index row2 }))

/-- RNMat::is_valid_dimension (spec name: is_multiplication_compatible). -/
def RNMat.is_valid_dimension (m other : RNMat) : Bool :=
  (m.mat.length + other.mat.length == 0) || (m.col_num == other.mat.length)

/-- One row of From<Vec<Vec<(i32, i32)>>>: convert each pair with
RNum::new; none models the panic on a zero denominator. -/
def newRow : List (Int × Int) → Option (List RNum)
  | [] => some []
  | t :: rest =>
    match RNum.new t.1 t.2 with
    | none => none
    | some x => (newRow rest).map (fun r => x :: r)

/-- The row map of From<Vec<Vec<(i32, i32)>>>: assert_eq! each row
length against the first row's length, then convert the row; none
models either panic. -/
def gridRows (col_len : Nat) : List (List (Int × Int)) → Option (List (List RNum))
  | [] => some []
  | row :: rest =>
    if col_len = row.length then
      match newRow row with
      | none => none
      | some r => (gridRows col_len rest).map (fun rs => r :: rs)
    else none

/-- impl From<Vec<Vec<(i32, i32)>>> for RNMat. -/
def RNMat.from_grid (vecs : List (List (Int × Int))) : Option RNMat :=
  match vecs with
  | [] => some { mat := [] }
  | v0 :: _ => (gridRows v0.length vecs).map (fun rs => { mat := rs })

/-- PartialEq for RNMat. -/
def RNMat.eq (m other : RNMat) : Bool :=
  if m.mat.length ≠ other.mat.length then false
  else if m.mat.length = 0 then true
  else if m.col_num ≠ other.col_num then false
  else
    (List.range m.mat.length).all (fun i =>
      (List.range m.col_num).all (fun j =>
        RNum.eq ((m.mat.getD i []).getD j RNum.zero)
          ((other.mat.getD i []).getD j RNum.zero)))

/-- A single mutating matrix call, for stating invariants over call
sequences. -/
inductive MatOp where
  | pushRow (row : List RNum)
  | pushCol (col : List RNum)
  | swapRow (a b : Nat)
  | scaleRow (factor : RNum) (index : Nat)

/-- Run one mutating call; none models a panic. -/
def RNMat.applyOp (m : RNMat) : MatOp → Option (Except RNMatError Unit × RNMat)
  | MatOp.pushRow row => some (m.push_row row)
  | MatOp.pushCol col => some (m.push_col col)
  | MatOp.swapRow a b => some (m.swap_row a b)
  | MatOp.scaleRow f i => m.row_mul_scalar f i

/-- Run a sequence of mutating calls, keeping the post-state whether
each call succeeds or reports an error; none models a panic. -/
def RNMat.runOps (m : RNMat) : List MatOp → Option RNMat
  | [] => some m
  | op :: rest =>
    match m.applyOp op with
    | none => none
    | some (_, m2) => RNMat.runOps m2 rest

/-- Rectangularity: every row has the length reported by col_num. -/
def RNMat.Rectangular (m : RNMat) : Prop :=
  ∀ i (h : i < m.mat.length), (m.mat[i]).length = m.col_num

/-- Canonical form of a rational value: nonzero denominator, lowest
terms when the numerator is nonzero, and the unique zero
representation otherwise. -/
def RNum.Canonical (x : RNum) : Prop :=
  x.deno ≠ 0 ∧ (x.nume = 0 → x = RNum.zero) ∧
    (x.nume ≠ 0 → Nat.gcd x.nume x.deno = 1)

-- sanity checks against the repository's unit tests
example : RNum.new 0 1 = some RNum.zero := by decide

example : RNum.eq (RNum.mk false 1 2) (RNum.mk false 1 2) = true := by decide

example :
    (do RNum.add (← RNum.new 1 4) (← RNum.new 1 4)) = RNum.new 1 2 := by decide

example :
    (do RNum.sub (← RNum.new 1 4) (← RNum.new (-1) 4)) = RNum.new 1 2 := by decide

example :
    (do RNum.mul (← RNum.new 1 (-2)) (← RNum.new 1 2)) = RNum.new (-1) 4 := by decide

example :
    (do RNum.div (← RNum.new 1 (-2)) (← RNum.new 1 2)) = RNum.new (-1) 1 := by decide

example : (do RNum.div (← RNum.new 1 2) (← RNum.new 0 1)) = none := by decide

example : RNum.neg (RNum.mk true 1 2) = RNum.mk false 1 2 := by decide

example : gcd 10 2 = 2 ∧ gcd 17 23 = 1 ∧ gcd 2 0 = 2 ∧ gcd 9 3 = gcd 3 9 := by decide

/-- RNum::zero is the value of RNum::new(0, 1), as in the source. -/
theorem RNum.zero_eq_new : RNum.new 0 1 = some RNum.zero := by decide

/-- The fuelled loop computes the mathematical gcd of its state when
given at least as much fuel as the remainder. -/
theorem gcd_loop_eq (f b r : Nat) (h : r ≤ f) : gcd_loop f b r = Nat.gcd r b := by
  induction f generalizing b r with
  | zero =>
    obtain rfl : r = 0 := Nat.le_zero.mp h
    simp [gcd_loop]
  | succ f ih =>
    match r with
    | 0 => simp [gcd_loop]
    | r + 1 =>
      have hlt : b % (r + 1) ≤ f := by
        have h1 : b % (r + 1) < r + 1 := Nat.mod_lt _ (Nat.succ_pos r)
        omega
      simp only [gcd_loop]
      rw [ih (r + 1) (b % (r + 1)) hlt]
      exact (Nat.gcd_rec (r + 1) b).symm

/-- The swapped gcd body agrees with the mathematical gcd. -/
theorem gcd_core_eq (a b : Nat) : gcd_core a b = Nat.gcd a b := by
  unfold gcd_core
  by_cases hb1 : b = 1
  · simp [hb1]
  · by_cases h2 : a = b ∨ b = 0
    · rcases h2 with rfl | rfl
      · simp [hb1, Nat.gcd_self]
      · simp [hb1]
    · simp only [hb1, h2, if_false]
      rw [gcd_loop_eq _ _ _ (Nat.le_refl _)]
      rw [Nat.gcd_comm a b, Nat.gcd_rec b a]

/-- utils::gcd agrees with the mathematical gcd. -/
theorem gcd_eq (a b : Nat) : gcd a b = Nat.gcd a b := by
  unfold gcd
  by_cases h : a < b
  · simp only [h, if_true, gcd_core_eq, Nat.gcd_comm b a]
  · simp only [h, if_false, gcd_core_eq]

/-- Whatever RNum::reduce returns is in canonical form. -/
theorem reduce_canonical (x y : RNum) (h : RNum.reduce x = some y) :
    y.Canonical := by
  unfold RNum.reduce at h
  split at h
  · exact absurd h (by simp)
  case isFalse hd =>
    split at h
    case isTrue hn =>
      obtain rfl := Option.some_inj.mp h
      refine ⟨Nat.one_ne_zero, fun _ => ?_, fun hc => absurd hn hc⟩
      simp [RNum.zero, hn]
    case isFalse hn =>
      simp only [gcd_eq] at h
      rw [Nat.gcd_comm x.deno x.nume] at h
      split at h
      case isTrue hg =>
        obtain rfl := Option.some_inj.mp h
        have hgpos : 0 < Nat.gcd x.nume x.deno := by omega
        have hnpos : 0 < x.nume / Nat.gcd x.nume x.deno :=
          Nat.div_pos (Nat.le_of_dvd (Nat.pos_of_ne_zero hn) (Nat.gcd_dvd_left _ _)) hgpos
        have hdpos : 0 < x.deno / Nat.gcd x.nume x.deno :=
          Nat.div_pos (Nat.le_of_dvd (Nat.pos_of_ne_zero hd) (Nat.gcd_dvd_right _ _)) hgpos
        have hnne : x.nume / Nat.gcd x.nume x.deno ≠ 0 := by omega
        have hdne : x.deno / Nat.gcd x.nume x.deno ≠ 0 := by omega
        have hco : Nat.gcd (x.nume / Nat.gcd x.nume x.deno)
            (x.deno / Nat.gcd x.nume x.deno) = 1 :=
          Nat.coprime_div_gcd_div_gcd hgpos
        exact ⟨hdne, fun h0 => absurd h0 hnne, fun _ => hco⟩
      case isFalse hg =>
        obtain rfl := Option.some_inj.mp h
        have hgne : Nat.gcd x.nume x.deno ≠ 0 := fun hh =>
          hn (Nat.eq_zero_of_gcd_eq_zero_left hh)
        have hg1 : Nat.gcd x.nume x.deno = 1 := by omega
        exact ⟨hd, fun hc => absurd hc hn, fun _ => hg1⟩

/-- Whatever RNum::new returns is in canonical form. -/
theorem new_canonical (n d : Int) (x : RNum) (h : RNum.new n d = some x) :
    x.Canonical := by
  unfold RNum.new at h
  split at h
  · exact absurd h (by simp)
  case isFalse hd =>
    split at h
    case isTrue hn =>
      obtain rfl := Option.some_inj.mp h
      exact ⟨Nat.one_ne_zero, fun _ => rfl, fun hc => absurd rfl hc⟩
    case isFalse hn =>
      simp only [gcd_eq] at h
      rw [Nat.gcd_comm d.natAbs n.natAbs] at h
      obtain rfl := Option.some_inj.mp h
      have hna : n.natAbs ≠ 0 := Int.natAbs_ne_zero.mpr hn
      have hda : d.natAbs ≠ 0 := Int.natAbs_ne_zero.mpr hd
      have hgpos : 0 < Nat.gcd n.natAbs d.natAbs :=
        Nat.pos_of_ne_zero (fun hh => hna (Nat.eq_zero_of_gcd_eq_zero_left hh))
      have hnpos : 0 < n.natAbs / Nat.gcd n.natAbs d.natAbs :=
        Nat.div_pos (Nat.le_of_dvd (Nat.pos_of_ne_zero hna) (Nat.gcd_dvd_left _ _)) hgpos
      have hdpos : 0 < d.natAbs / Nat.gcd n.natAbs d.natAbs :=
        Nat.div_pos (Nat.le_of_dvd (Nat.pos_of_ne_zero hda) (Nat.gcd_dvd_right _ _)) hgpos
      have hnne : n.natAbs / Nat.gcd n.natAbs d.natAbs ≠ 0 := by omega
      have hdne : d.natAbs / Nat.gcd n.natAbs d.natAbs ≠ 0 := by omega
      exact ⟨hdne, fun h0 => absurd h0 hnne,
        fun _ => Nat.coprime_div_gcd_div_gcd hgpos⟩

/-- RNum::neg of a canonical value is canonical. -/
theorem neg_canonical (x : RNum) (h : x.Canonical) : (RNum.neg x).Canonical := by
  obtain ⟨hd, hz, hg⟩ := h
  by_cases hn : x.nume = 0
  · rw [hz hn]
    exact ⟨Nat.one_ne_zero, fun _ => rfl, fun hc => absurd rfl hc⟩
  · exact ⟨hd, fun h0 => absurd h0 hn, fun _ => hg hn⟩

/-- RNum::reduce hits its assert exactly on a zero denominator. -/
theorem reduce_eq_none_iff (x : RNum) : RNum.reduce x = none ↔ x.deno = 0 := by
  unfold RNum.reduce
  split
  · simp_all
  · split
    · simp_all
    · simp only [gcd_eq]
      split <;> simp_all

/-- RNum::reduce returns a value when the denominator is nonzero. -/
theorem reduce_isSome (x : RNum) (h : x.deno ≠ 0) : (RNum.reduce x).isSome := by
  rw [Option.isSome_iff_ne_none]
  intro hh
  exact h ((reduce_eq_none_iff x).mp hh)

/-- C6: every RNum produced by construction or by an arithmetic
operation is canonical: nonzero denominator, lowest terms for a
nonzero numerator, and the unique (false, 0, 1) form for zero. -/
theorem C6_canonical_invariant :
    (∀ (n d : Int) (x : RNum), RNum.new n d = some x → x.Canonical) ∧
    (∀ (a b x : RNum), RNum.add a b = some x → x.Canonical) ∧
    (∀ (a b x : RNum), RNum.sub a b = some x → x.Canonical) ∧
    (∀ (a b x : RNum), RNum.mul a b = some x → x.Canonical) ∧
    (∀ (a b x : RNum), RNum.div a b = some x → x.Canonical) ∧
    (∀ x : RNum, x.Canonical → (RNum.neg x).Canonical) :=
  ⟨new_canonical,
   fun _ _ x h => reduce_canonical _ x h,
   fun _ _ x h => reduce_canonical _ x h,
   fun _ _ x h => reduce_canonical _ x h,
   fun _ _ x h => reduce_canonical _ x h,
   neg_canonical⟩

/-- Witness for C6 at concrete inputs. -/
theorem C6_canonical_invariant_witness :
    RNum.new 1 (-2) = some (RNum.mk true 1 2) ∧
    (RNum.mk true 1 2).Canonical ∧ (RNum.neg (RNum.mk true 1 2)).Canonical :=
  ⟨by decide,
   C6_canonical_invariant.1 1 (-2) (RNum.mk true 1 2) (by decide),
   C6_canonical_invariant.2.2.2.2.2 (RNum.mk true 1 2)
     (C6_canonical_invariant.1 1 (-2) (RNum.mk true 1 2) (by decide))⟩

/-- C3 (amended): when the product of the denominators is not a
multiple of 2^32, add, sub and mul cannot hit their assert and return
a value; neg has no failure path at all in the source. -/
theorem C3_no_overflow_total (a b : RNum)
    (h : ¬ (2 ^ 32 ∣ a.deno * b.deno)) :
    (RNum.add a b).isSome ∧ (RNum.sub a b).isSome ∧ (RNum.mul a b).isSome := by
  have hd : wmul a.deno b.deno ≠ 0 := fun hh =>
    h (Nat.dvd_of_mod_eq_zero hh)
  exact ⟨reduce_isSome _ hd, reduce_isSome _ hd, reduce_isSome _ hd⟩

/-- C3 counterexample to the unrestricted claim: adding two validly
constructed values makes the denominator product wrap to zero, so the
assert in reduce fires (a panic). -/
theorem C3_counterexample :
    RNum.new 1 65536 = some (RNum.mk false 1 65536) ∧
    RNum.add (RNum.mk false 1 65536) (RNum.mk false 1 65536) = none := by decide

/-- Witness for C3 at concrete inputs. -/
theorem C3_no_overflow_total_witness :
    ¬ (2 ^ 32 ∣ (RNum.mk false 1 2).deno * (RNum.mk false 1 2).deno) ∧
    ((RNum.add (RNum.mk false 1 2) (RNum.mk false 1 2)).isSome ∧
     (RNum.sub (RNum.mk false 1 2) (RNum.mk false 1 2)).isSome ∧
     (RNum.mul (RNum.mk false 1 2) (RNum.mk false 1 2)).isSome) :=
  ⟨by decide, C3_no_overflow_total _ _ (by decide)⟩

/-- C7 (amended): when the left denominator times the right numerator
is not a multiple of 2^32, divide panics exactly when the right
operand is zero-valued. -/
theorem C7_div_fails_iff_zero (a b : RNum)
    (h : b.nume ≠ 0 → ¬ (2 ^ 32 ∣ a.deno * b.nume)) :
    (RNum.div a b = none ↔ b.is_zero = true) := by
  constructor
  · intro hnone
    simp only [RNum.div] at hnone
    have hd0 : wmul a.deno b.nume = 0 := (reduce_eq_none_iff _).mp hnone
    by_cases hb : b.nume = 0
    · simp [RNum.is_zero, hb]
    · exact absurd (Nat.dvd_of_mod_eq_zero hd0) (h hb)
  · intro hz
    have hb : b.nume = 0 := by simpa [RNum.is_zero] using hz
    simp only [RNum.div]
    rw [reduce_eq_none_iff]
    show wmul a.deno b.nume = 0
    simp [wmul, hb]

/-- C7 counterexample to the unrestricted claim: dividing by a nonzero
value whose numerator makes the raw denominator wrap to zero panics. -/
theorem C7_counterexample :
    RNum.new 1 65536 = some (RNum.mk false 1 65536) ∧
    RNum.new 65536 1 = some (RNum.mk false 65536 1) ∧
    (RNum.mk false 65536 1).is_zero = false ∧
    RNum.div (RNum.mk false 1 65536) (RNum.mk false 65536 1) = none := by decide

/-- Witness for C7 at concrete inputs. -/
theorem C7_div_fails_iff_zero_witness :
    ((RNum.mk false 1 2).nume ≠ 0 →
      ¬ (2 ^ 32 ∣ (RNum.mk false 1 3).deno * (RNum.mk false 1 2).nume)) ∧
    (RNum.div (RNum.mk false 1 3) (RNum.mk false 1 2) = none ↔
      (RNum.mk false 1 2).is_zero = true) :=
  ⟨by decide, C7_div_fails_iff_zero _ _ (by decide)⟩

/-- C1 fails on the code: for a = construct(1, 2) and
b = construct(-1, 4) — numerators and denominators within [-20, 20] —
the source addition returns -1/4 for a + b but -3/4 for b + a, and the
source PartialEq rejects them, so addition is not commutative. -/
theorem C1_add_not_commutative :
    RNum.new 1 2 = some (RNum.mk false 1 2) ∧
    RNum.new (-1) 4 = some (RNum.mk true 1 4) ∧
    RNum.add (RNum.mk false 1 2) (RNum.mk true 1 4) = some (RNum.mk true 1 4) ∧
    RNum.add (RNum.mk true 1 4) (RNum.mk false 1 2) = some (RNum.mk true 3 4) ∧
    RNum.eq (RNum.mk true 1 4) (RNum.mk true 3 4) = false := by decide

/-- C2 fails on the code: for the negative value a = construct(-1, 2),
the source subtraction computes a - a = -1 instead of zero(), because
Sub adds the magnitudes when the right operand is negative and sets
the sign flag to the negation of the xor of the operand flags. -/
theorem C2_sub_self_not_zero :
    RNum.new (-1) 2 = some (RNum.mk true 1 2) ∧
    RNum.sub (RNum.mk true 1 2) (RNum.mk true 1 2) = some (RNum.mk true 1 1) ∧
    RNum.eq (RNum.mk true 1 1) RNum.zero = false := by decide

/-- C5 fails on the code: for a = construct(1, 2) and b = construct(0, 1),
the source subtraction returns -1/2 for a - b while a + (-b) returns 1/2,
so subtraction does not agree with adding the negation. -/
theorem C5_sub_ne_add_neg :
    RNum.new 1 2 = some (RNum.mk false 1 2) ∧
    RNum.new 0 1 = some RNum.zero ∧
    RNum.sub (RNum.mk false 1 2) RNum.zero = some (RNum.mk true 1 2) ∧
    RNum.add (RNum.mk false 1 2) (RNum.neg RNum.zero) = some (RNum.mk false 1 2) ∧
    RNum.eq (RNum.mk true 1 2) (RNum.mk false 1 2) = false := by decide

/-- C4 counterexample: a 2x1 matrix is NOT multiplication-compatible
with a 2x2 matrix (the left column count 1 differs from the right row
count 2), contradicting the claim; the repository's own unit test
asserts this false as well. -/
theorem C4_counterexample :
    RNMat.is_valid_dimension
      (RNMat.mk [[RNum.zero], [RNum.zero]])
      (RNMat.mk [[RNum.zero, RNum.zero], [RNum.zero, RNum.zero]]) = false := by
  decide

/-- C4 (amended): the compatibility check is false for a 1x2 matrix
against a 1x2 matrix, false for a 2x1 matrix against a 2x2 matrix, and
true for two empty matrices. -/
theorem C4_is_valid_dimension_shapes :
    (∀ m1 m2 : RNMat, m1.row_num = 1 → m1.col_num = 2 → m2.row_num = 1 →
      m1.is_valid_dimension m2 = false) ∧
    (∀ m1 m2 : RNMat, m1.row_num = 2 → m1.col_num = 1 → m2.row_num = 2 →
      m1.is_valid_dimension m2 = false) ∧
    (∀ m1 m2 : RNMat, m1.row_num = 0 → m2.row_num = 0 →
      m1.is_valid_dimension m2 = true) := by
  refine ⟨?_, ?_, ?_⟩ <;>
    intro m1 m2 <;>
    intros <;>
    simp_all [RNMat.is_valid_dimension, RNMat.row_num]

/-- Witness for C4 at concrete inputs. -/
theorem C4_is_valid_dimension_shapes_witness :
    ((RNMat.mk [[RNum.zero, RNum.zero]]).row_num = 1 ∧
     (RNMat.mk [[RNum.zero, RNum.zero]]).col_num = 2 ∧
     (RNMat.mk [[RNum.zero, RNum.zero]]).row_num = 1) ∧
    RNMat.is_valid_dimension (RNMat.mk [[RNum.zero, RNum.zero]])
      (RNMat.mk [[RNum.zero, RNum.zero]]) = false :=
  ⟨⟨by decide, by decide, by decide⟩,
   C4_is_valid_dimension_shapes.1 _ _ (by decide) (by decide) (by decide)⟩

/-- A matrix whose rows all have length k is rectangular. -/
theorem rect_of_forall (l : List (List RNum)) (k : Nat)
    (h : ∀ r ∈ l, r.length = k) : (RNMat.mk l).Rectangular := by
  intro i hi
  cases l with
  | nil => exact absurd hi (by simp)
  | cons r0 rest =>
    have h0 : r0.length = k := h r0 (List.mem_cons_self r0 rest)
    have hc : (RNMat.mk (r0 :: rest)).col_num = k := by
      simp [RNMat.col_num, h0]
    rw [hc]
    exact h _ (List.getElem_mem hi)

/-- Every row of a rectangular matrix has length col_num. -/
theorem forall_of_rect (m : RNMat) (h : m.Rectangular) :
    ∀ r ∈ m.mat, r.length = m.col_num := by
  intro r hr
  obtain ⟨i, hi, rfl⟩ := List.mem_iff_getElem.mp hr
  exact h i hi

/-- RNMat::push_row preserves rectangularity. -/
theorem push_row_rect (m : RNMat) (row : List RNum) (h : m.Rectangular) :
    (m.push_row row).2.Rectangular := by
  unfold RNMat.push_row
  cases hm : m.mat with
  | nil =>
    refine rect_of_forall _ row.length ?_
    intro r hr
    simp at hr
    rw [hr]
  | cons r0 rest =>
    dsimp only
    split
    case isTrue => exact h
    case isFalse hlen =>
      rw [Ne, not_not] at hlen
      refine rect_of_forall _ r0.length ?_
      intro r hr
      rcases List.mem_append.mp hr with h2 | h2
      · have hcol : m.col_num = r0.length := by
          unfold RNMat.col_num
          rw [hm]
        rw [forall_of_rect m h r (by rw [hm]; exact h2), hcol]
      · rw [List.mem_singleton.mp h2, hlen]

/-- RNMat::push_col preserves rectangularity. -/
theorem push_col_rect (m : RNMat) (col : List RNum) (h : m.Rectangular) :
    (m.push_col col).2.Rectangular := by
  unfold RNMat.push_col
  split
  case isTrue h0 =>
    have hm : m.mat = [] := List.length_eq_zero.mp h0
    refine rect_of_forall _ 1 ?_
    intro r hr
    rw [hm] at hr
    simp at hr
    obtain ⟨e, _, rfl⟩ := hr
    rfl
  case isFalse h0 =>
    split
    · exact h
    case isFalse hlen =>
      refine rect_of_forall _ (m.col_num + 1) ?_
      intro r hr
      obtain ⟨i, hi, rfl⟩ := List.mem_iff_getElem.mp hr
      have hi2 := hi
      rw [List.length_zipWith] at hi2
      have hia : i < m.mat.length := lt_of_lt_of_le hi2 (min_le_left _ _)
      have hib : i < col.length := lt_of_lt_of_le hi2 (min_le_right _ _)
      rw [List.getElem_zipWith]
      rw [List.length_append]
      simp [h i hia]

/-- RNMat::swap_row preserves rectangularity. -/
theorem swap_row_rect (m : RNMat) (a b : Nat) (h : m.Rectangular) :
    (m.swap_row a b).2.Rectangular := by
  unfold RNMat.swap_row
  split
  · exact h
  case isFalse hab =>
    push_neg at hab
    obtain ⟨ha, hb⟩ := hab
    refine rect_of_forall _ m.col_num ?_
    intro r hr
    unfold listSwap at hr
    rw [List.getElem?_eq_getElem ha, List.getElem?_eq_getElem hb] at hr
    simp only at hr
    rcases List.mem_or_eq_of_mem_set hr with hr2 | rfl
    · rcases List.mem_or_eq_of_mem_set hr2 with hr3 | rfl
      · exact forall_of_rect m h r hr3
      · exact h b hb
    · exact h a ha

/-- The row loop of row_mul_scalar preserves the row length. -/
theorem mulRow_length (factor : RNum) (l l2 : List RNum)
    (h : mulRow factor l = some l2) : l2.length = l.length := by
  induction l generalizing l2 with
  | nil =>
    simp [mulRow] at h
    simp [← h]
  | cons e rest ih =>
    unfold mulRow at h
    cases hmul : RNum.mul e factor with
    | none => rw [hmul] at h; simp at h
    | some e2 =>
      rw [hmul] at h
      cases hrec : mulRow factor rest with
      | none => rw [hrec] at h; simp at h
      | some r2 =>
        rw [hrec] at h
        simp at h
        rw [← h]
        simp [ih r2 hrec]

/-- RNMat::row_mul_scalar preserves rectangularity. -/
theorem row_mul_scalar_rect (m : RNMat) (f : RNum) (i : Nat)
    (res : Except RNMatError Unit) (m2 : RNMat)
    (h : m.row_mul_scalar f i = some (res, m2)) (hr : m.Rectangular) :
    m2.Rectangular := by
  unfold RNMat.row_mul_scalar at h
  split at h
  · simp at h
    rw [← h.2]
    exact hr
  case isFalse hlen =>
    cases hm : mulRow f (m.mat.getD i []) with
    | none => rw [hm] at h; simp at h
    | some row2 =>
      rw [hm] at h
      simp at h
      rw [← h.2]
      have hi : i < m.mat.length := by omega
      refine rect_of_forall _ m.col_num ?_
      intro r hrr
      rcases List.mem_or_eq_of_mem_set hrr with h3 | rfl
      · exact forall_of_rect m hr r h3
      · rw [mulRow_length f _ _ hm, List.getD_eq_getElem _ _ hi]
        exact hr i hi

/-- Any single mutating call preserves rectangularity. -/
theorem applyOp_rect (m : RNMat) (op : MatOp) (res : Except RNMatError Unit)
    (m2 : RNMat) (h : m.applyOp op = some (res, m2)) (hr : m.Rectangular) :
    m2.Rectangular := by
  cases op with
  | pushRow row =>
    have h2 := Option.some_inj.mp h
    rw [show m2 = (m.push_row row).2 from by rw [h2]]
    exact push_row_rect m row hr
  | pushCol col =>
    have h2 := Option.some_inj.mp h
    rw [show m2 = (m.push_col col).2 from by rw [h2]]
    exact push_col_rect m col hr
  | swapRow a b =>
    have h2 := Option.some_inj.mp h
    rw [show m2 = (m.swap_row a b).2 from by rw [h2]]
    exact swap_row_rect m a b hr
  | scaleRow f i => exact row_mul_scalar_rect m f i res m2 h hr

/-- Any non-panicking sequence of mutating calls preserves
rectangularity. -/
theorem runOps_rect (ops : List MatOp) (m m2 : RNMat)
    (h : m.runOps ops = some m2) (hr : m.Rectangular) : m2.Rectangular := by
  induction ops generalizing m with
  | nil =>
    simp [RNMat.runOps] at h
    rw [← h]
    exact hr
  | cons op rest ih =>
    unfold RNMat.runOps at h
    cases hap : m.applyOp op with
    | none => rw [hap] at h; simp at h
    | some pr =>
      rw [hap] at h
      obtain ⟨res, mm⟩ := pr
      exact ih mm h (applyOp_rect m op res mm hap hr)

/-- One converted grid row has the length of its input row. -/
theorem newRow_length (l : List (Int × Int)) (r : List RNum)
    (h : newRow l = some r) : r.length = l.length := by
  induction l generalizing r with
  | nil =>
    simp [newRow] at h
    simp [← h]
  | cons t rest ih =>
    unfold newRow at h
    cases hn : RNum.new t.1 t.2 with
    | none => rw [hn] at h; simp at h
    | some x =>
      rw [hn] at h
      cases hrec : newRow rest with
      | none => rw [hrec] at h; simp at h
      | some r2 =>
        rw [hrec] at h
        simp at h
        rw [← h]
        simp [ih r2 hrec]

/-- Every row produced by the grid conversion has the first row's
length. -/
theorem gridRows_lengths (cl : Nat) (vecs : List (List (Int × Int)))
    (rs : List (List RNum)) (h : gridRows cl vecs = some rs) :
    ∀ r ∈ rs, r.length = cl := by
  induction vecs generalizing rs with
  | nil =>
    simp [gridRows] at h
    subst h
    simp
  | cons v rest ih =>
    unfold gridRows at h
    split at h
    case isTrue hcl =>
      cases hnr : newRow v with
      | none => rw [hnr] at h; simp at h
      | some r0 =>
        rw [hnr] at h
        cases hgr : gridRows cl rest with
        | none => rw [hgr] at h; simp at h
        | some rs0 =>
          rw [hgr] at h
          simp at h
          rw [← h]
          intro r hr
          rcases List.mem_cons.mp hr with rfl | hr2
          · rw [newRow_length v r hnr, ← hcl]
          · exact ih rs0 hgr r hr2
    case isFalse => simp at h

/-- A successful grid construction is rectangular. -/
theorem from_grid_rect (vecs : List (List (Int × Int))) (m : RNMat)
    (h : RNMat.from_grid vecs = some m) : m.Rectangular := by
  unfold RNMat.from_grid at h
  cases vecs with
  | nil =>
    simp at h
    rw [← h]
    intro i hi
    exact absurd hi (by simp)
  | cons v0 rest =>
    dsimp only at h
    cases hgr : gridRows v0.length (v0 :: rest) with
    | none => rw [hgr] at h; simp at h
    | some rs =>
      rw [hgr] at h
      simp at h
      rw [← h]
      exact rect_of_forall rs v0.length (gridRows_lengths _ _ _ hgr)

/-- An empty matrix reports a zero column count. -/
theorem col_num_of_no_rows (m : RNMat) (h : m.row_num = 0) : m.col_num = 0 := by
  unfold RNMat.col_num
  unfold RNMat.row_num at h
  rw [List.length_eq_zero.mp h]

/-- C8: starting from RNMat::new or from a successful grid
construction, after any non-panicking sequence of push_row, push_col,
swap_row and row_mul_scalar calls — whether each succeeds or reports
an error — every row has length col_num, and col_num is 0 exactly on
zero rows. -/
theorem C8_rectangularity_invariant :
    (∀ (ops : List MatOp) (m2 : RNMat), RNMat.new.runOps ops = some m2 →
      m2.Rectangular ∧ (m2.row_num = 0 → m2.col_num = 0)) ∧
    (∀ (g : List (List (Int × Int))) (m : RNMat) (ops : List MatOp) (m2 : RNMat),
      RNMat.from_grid g = some m → m.runOps ops = some m2 →
      m2.Rectangular ∧ (m2.row_num = 0 → m2.col_num = 0)) := by
  constructor
  · intro ops m2 h
    refine ⟨runOps_rect ops RNMat.new m2 h ?_, col_num_of_no_rows m2⟩
    intro i hi
    exact absurd hi (by simp [RNMat.new])
  · intro g m ops m2 hg h
    exact ⟨runOps_rect ops m m2 h (from_grid_rect g m hg), col_num_of_no_rows m2⟩

/-- Witness for C8 at concrete inputs. -/
theorem C8_rectangularity_invariant_witness :
    RNMat.new.runOps [MatOp.pushRow [RNum.zero]] = some (RNMat.mk [[RNum.zero]]) ∧
    ((RNMat.mk [[RNum.zero]]).Rectangular ∧
      ((RNMat.mk [[RNum.zero]]).row_num = 0 → (RNMat.mk [[RNum.zero]]).col_num = 0)) :=
  ⟨by decide, C8_rectangularity_invariant.1 [MatOp.pushRow [RNum.zero]] _ (by decide)⟩

/-- Index view of appending one element to every row. -/
theorem zipWith_push_getD (l1 : List (List RNum)) (l2 : List RNum) (i : Nat)
    (h1 : i < l1.length) (h2 : i < l2.length) :
    (List.zipWith (fun r e => r ++ [e]) l1 l2).getD i [] =
      (l1.getD i []) ++ [l2.getD i RNum.zero] := by
  have hz : i < (List.zipWith (fun r e => r ++ [e]) l1 l2).length := by
    rw [List.length_zipWith]
    omega
  rw [List.getD_eq_getElem _ _ hz, List.getD_eq_getElem _ _ h1,
    List.getD_eq_getElem _ _ h2]
  exact List.getElem_zipWith (h := hz)

/-- C9: push_col on an empty matrix turns a column of length m into an
m-by-1 matrix, one single-element row per element, in order; on a
non-empty matrix it fails with ColDismatch exactly when the column
length differs from the row count, and on success appends the i-th
column element to the end of the i-th row. -/
theorem C9_push_col_spec :
    (∀ (m : RNMat) (col : List RNum), m.mat = [] →
      m.push_col col = (Except.ok (), RNMat.mk (col.map (fun e => [e]))) ∧
      (m.push_col col).2.row_num = col.length ∧
      (col ≠ [] → (m.push_col col).2.col_num = 1)) ∧
    (∀ (m : RNMat) (col : List RNum), m.mat ≠ [] →
      ((m.push_col col).1 = Except.error RNMatError.ColDismatch ↔
        col.length ≠ m.row_num)) ∧
    (∀ (m : RNMat) (col : List RNum), m.mat ≠ [] → col.length = m.row_num →
      (m.push_col col).1 = Except.ok () ∧
      ∀ i, i < m.row_num →
        (m.push_col col).2.mat.getD i [] =
          (m.mat.getD i []) ++ [col.getD i RNum.zero]) := by
  refine ⟨?_, ?_, ?_⟩
  · intro m col hm
    have hres : m.push_col col = (Except.ok (), RNMat.mk (col.map (fun e => [e]))) := by
      unfold RNMat.push_col
      simp [hm]
    refine ⟨hres, ?_, ?_⟩
    · rw [hres]
      simp [RNMat.row_num]
    · intro hc
      rw [hres]
      cases col with
      | nil => exact absurd rfl hc
      | cons e rest => simp [RNMat.col_num]
  · intro m col hm
    have h0 : ¬ (m.mat.length = 0) := fun hh => hm (List.length_eq_zero.mp hh)
    unfold RNMat.push_col
    rw [if_neg h0]
    by_cases hc : m.mat.length ≠ col.length
    · rw [if_pos hc]
      simp [RNMat.row_num]
      omega
    · rw [if_neg hc]
      simp [RNMat.row_num]
      omega
  · intro m col hm hlen
    have h0 : ¬ (m.mat.length = 0) := fun hh => hm (List.length_eq_zero.mp hh)
    have hne : ¬ (m.mat.length ≠ col.length) := by
      unfold RNMat.row_num at hlen
      omega
    have hres : m.push_col col =
        (Except.ok (), RNMat.mk (List.zipWith (fun r e => r ++ [e]) m.mat col)) := by
      unfold RNMat.push_col
      rw [if_neg h0, if_neg hne]
    refine ⟨by rw [hres], ?_⟩
    intro i hi
    rw [hres]
    unfold RNMat.row_num at hi hlen
    exact zipWith_push_getD m.mat col i hi (by omega)

/-- Witness for C9 at concrete inputs. -/
theorem C9_push_col_spec_witness :
    ((RNMat.mk [[RNum.zero]]).mat ≠ [] ∧
      ([RNum.zero] : List RNum).length = (RNMat.mk [[RNum.zero]]).row_num) ∧
    (((RNMat.mk [[RNum.zero]]).push_col [RNum.zero]).1 = Except.ok () ∧
      ∀ i, i < (RNMat.mk [[RNum.zero]]).row_num →
        ((RNMat.mk [[RNum.zero]]).push_col [RNum.zero]).2.mat.getD i [] =
          ((RNMat.mk [[RNum.zero]]).mat.getD i []) ++
            [([RNum.zero] : List RNum).getD i RNum.zero]) :=
  ⟨⟨by decide, by decide⟩, C9_push_col_spec.2.2 _ _ (by decide) (by decide)⟩

/-- push_row either leaves the matrix unchanged or reports success. -/
theorem push_row_cases (m : RNMat) (row : List RNum) :
    (m.push_row row).2 = m ∨ (m.push_row row).1 = Except.ok () := by
  unfold RNMat.push_row
  cases m.mat with
  | nil => exact Or.inr rfl
  | cons r0 rest =>
    dsimp only
    split
    · exact Or.inl rfl
    · exact Or.inr rfl

/-- push_col either leaves the matrix unchanged or reports success. -/
theorem push_col_cases (m : RNMat) (col : List RNum) :
    (m.push_col col).2 = m ∨ (m.push_col col).1 = Except.ok () := by
  unfold RNMat.push_col
  split
  · exact Or.inr rfl
  · split
    · exact Or.inl rfl
    · exact Or.inr rfl

/-- swap_row either leaves the matrix unchanged or reports success. -/
theorem swap_row_cases (m : RNMat) (a b : Nat) :
    (m.swap_row a b).2 = m ∨ (m.swap_row a b).1 = Except.ok () := by
  unfold RNMat.swap_row
  split
  · exact Or.inl rfl
  · exact Or.inr rfl

/-- C10: whenever a mutating matrix call reports an error, the matrix
is left exactly as it was before the call. -/
theorem C10_error_leaves_unchanged :
    (∀ (m : RNMat) (row : List RNum) (e : RNMatError),
      (m.push_row row).1 = Except.error e → (m.push_row row).2 = m) ∧
    (∀ (m : RNMat) (col : List RNum) (e : RNMatError),
      (m.push_col col).1 = Except.error e → (m.push_col col).2 = m) ∧
    (∀ (m : RNMat) (a b : Nat) (e : RNMatError),
      (m.swap_row a b).1 = Except.error e → (m.swap_row a b).2 = m) ∧
    (∀ (m : RNMat) (f : RNum) (i : Nat) (e : RNMatError) (m2 : RNMat),
      m.row_mul_scalar f i = some (Except.error e, m2) → m2 = m) := by
  refine ⟨?_, ?_, ?_, ?_⟩
  · intro m row e h
    rcases push_row_cases m row with h2 | h2
    · exact h2
    · rw [h2] at h
      exact absurd h (by simp)
  · intro m col e h
    rcases push_col_cases m col with h2 | h2
    · exact h2
    · rw [h2] at h
      exact absurd h (by simp)
  · intro m a b e h
    rcases swap_row_cases m a b with h2 | h2
    · exact h2
    · rw [h2] at h
      exact absurd h (by simp)
  · intro m f i e m2 h
    unfold RNMat.row_mul_scalar at h
    split at h
    · simp at h
      exact h.2.symm
    · cases hm : mulRow f (m.mat.getD i []) with
      | none => rw [hm] at h; simp at h
      | some row2 =>
        rw [hm] at h
        simp at h

/-- Witness for C10 at concrete inputs. -/
theorem C10_error_leaves_unchanged_witness :
    ((RNMat.mk [[RNum.zero]]).push_row [RNum.zero, RNum.zero]).1 =
      Except.error RNMatError.RowDismatch ∧
    ((RNMat.mk [[RNum.zero]]).push_row [RNum.zero, RNum.zero]).2 =
      RNMat.mk [[RNum.zero]] :=
  ⟨by decide,
   C10_error_leaves_unchanged.1 _ _ RNMatError.RowDismatch (by decide)⟩

end Rnmat
